import Mathlib

/-!
# Verification of the rock-paper-scissors fighting-game server

Shallow embedding of the two near-duplicate socket servers of the
repository (the alternating attack/defense variant in `src/server.js`
and the simultaneous-submission variant in `src/unnamed/part_000`),
together with proofs about the claims of the specification.

Conventions of the embedding:
* JS numbers holding player stats and health are modelled as `ℤ`
  (they are integers in every code path), the effectiveness
  multiplier as `ℚ` (it takes the values 2.0, 1.0, 0.5).
* `Math.random()`-derived values are inputs (oracles): the damage
  jitter `Math.floor(Math.random() * 5)` becomes a `ℕ` parameter and
  the drawn game id of `generateGameId` becomes a `String` parameter.
* Nullable JS fields become `Option`; a JS `TypeError` escaping a
  handler (member access on `null`/`undefined`) is the `thrown`
  outcome.
* The global `games` object is an association list `Registry`;
  `games[id] = g` is `setG`, `delete games[id]` is `removeG`.
* A `setTimeout`-scheduled deletion is recorded as a `Removal`
  schedule value returned by the handler.
-/

namespace RPS

/-- Move type: `"rock" | "paper" | "scissors"`. -/
inductive Move
  | rock
  | paper
  | scissors
deriving DecidableEq

/-- The string a move prints as in the JS template literals. -/
def Move.str : Move → String
  | .rock => "rock"
  | .paper => "paper"
  | .scissors => "scissors"

/-- How a nullable move field prints in a JS template literal
(`null` prints as `"null"`). -/
def mstr : Option Move → String
  | none => "null"
  | some m => m.str

/-- Qualitative effectiveness tier: `"super" | "normal" | "not"`. -/
inductive EffTier
  | super
  | normal
  | not
deriving DecidableEq

/-- Result of the effectiveness resolver: `{ multiplier, type }`. -/
structure EffResult where
  multiplier : ℚ
  type : EffTier
deriving DecidableEq

/-- Constant `SUPER_EFFECTIVE = 2.0` (written as the rational `2`; see
`SUPER_EFFECTIVE_val`). -/
def SUPER_EFFECTIVE : ℚ := 2

/-- Constant `NORMAL_EFFECTIVE = 1.0`. -/
def NORMAL_EFFECTIVE : ℚ := 1

/-- Constant `NOT_EFFECTIVE = 0.5`, written as the literal rational `1/2` so
that it evaluates inside the kernel; `NOT_EFFECTIVE_val` proves it
equals `0.5`. -/
def NOT_EFFECTIVE : ℚ := ⟨1, 2, by decide, Nat.coprime_one_left 2⟩

/-- Resolver `getEffectivenessMultiplier` (identical in both variants).  The
arguments are `Option Move` because the JS call sites can pass the
nullable `currentAttackType` / `currentDefenseType` fields; JS `===`
on `null` corresponds to equality of options. -/
def getEffectivenessMultiplier (attackType defenseType : Option Move) : EffResult :=
  if (attackType = some .rock ∧ defenseType = some .scissors)
      ∨ (attackType = some .scissors ∧ defenseType = some .paper)
      ∨ (attackType = some .paper ∧ defenseType = some .rock) then
    { multiplier := SUPER_EFFECTIVE, type := .super }
  else if attackType = defenseType then
    { multiplier := NORMAL_EFFECTIVE, type := .normal }
  else
    { multiplier := NOT_EFFECTIVE, type := .not }

/-- The effectiveness flavour text prepended to the battle log. -/
def effectivenessText : EffTier → String
  | .super => "It\x27s super effective!"
  | .not => "It\x27s not very effective..."
  | .normal => ""

/-- The damage formula used (identically) at `src/server.js:260` and
`src/unnamed/part_000:78-90`:
`Math.max(5, Math.floor(attack * multiplier - defense + jitter))`
where `jitter = Math.floor(Math.random() * 5)`.  The floor of
`attack * multiplier` is written through the numerator/denominator of
the rational multiplier so that the definition evaluates inside the
kernel; `computeDamage_eq_floor` proves this equal to the literal
`max 5 ⌊attack * mult - defense + jitter⌋` of the source. -/
def computeDamage (attack : ℤ) (mult : ℚ) (defense : ℤ) (jitter : ℕ) : ℤ :=
  max 5 ((attack * mult.num) / (mult.den : ℤ) - defense + (jitter : ℤ))

/-- Session phase. -/
inductive Phase
  | waiting
  | selection
  | battle
  | gameOver
deriving DecidableEq

/-- The client-input error taxonomy (the strings emitted on the
`error` event: "Game not found", "Game is full",
"Player not found in game", "Not your turn (to attack)"). -/
inductive GameError
  | gameNotFound
  | gameFull
  | playerNotFound
  | notYourTurn
deriving DecidableEq

/-- What a handler invocation does, besides updating the registry:
succeed, report a client error on the requesting socket, or let a JS
`TypeError` escape the handler boundary. -/
inductive HandlerOutcome
  | ok
  | err (e : GameError)
  | thrown
deriving DecidableEq

/-- Scheduled destruction of a session after a handler runs:
none, immediate `delete games[id]`, or a `setTimeout` delete. -/
inductive Removal
  | noRemoval
  | immediate
  | afterDelay (ms : ℕ)
deriving DecidableEq

/-- The in-memory `games` object, keyed by game id. -/
def Registry (G : Type) : Type := List (String × G)

instance {G : Type} [DecidableEq G] : DecidableEq (Registry G) :=
  inferInstanceAs (DecidableEq (List (String × G)))

instance {G : Type} : Membership (String × G) (Registry G) :=
  inferInstanceAs (Membership (String × G) (List (String × G)))

/-- Lookup `games[gameId]`. -/
def lookupG {G : Type} : Registry G → String → Option G
  | [], _ => none
  | (k, g) :: rest, key => if k = key then some g else lookupG rest key

/-- Assignment `games[gameId] = g`: replace the binding if the key is present,
otherwise add it. -/
def setG {G : Type} : Registry G → String → G → Registry G
  | [], key, g => [(key, g)]
  | (k, v) :: rest, key, g =>
    if k = key then (key, g) :: rest else (k, v) :: setG rest key g

/-- Deletion `delete games[gameId]`. -/
def removeG {G : Type} (R : Registry G) (key : String) : Registry G :=
  R.filter (fun e => e.1 ≠ key)

/-- In-place mutation of the object returned by
`players.find(p => p.id === pid)`: update the first matching entry. -/
def updateFirst {P : Type} (getId : P → String) : List P → String → (P → P) → List P
  | [], _, _ => []
  | p :: rest, pid, f =>
    if getId p = pid then f p :: rest else p :: updateFirst getId rest pid f

/-! ## The alternating attack/defense variant (`src/server.js`) -/

namespace Alt

/-- Player record of `src/server.js`. -/
structure Player where
  id : String
  name : String
  health : ℤ
  maxHealth : ℤ
  attack : ℤ
  defense : ℤ
  currentAttackType : Option Move
  currentDefenseType : Option Move
deriving DecidableEq

/-- Enumeration `TURN_TYPE`. -/
inductive TurnType
  | attack
  | defend
deriving DecidableEq

/-- The buffered `game.pendingAttack = { playerId, attackType }`. -/
structure PendingAttack where
  playerId : String
  attackType : Move
deriving DecidableEq

/-- Game record of `src/server.js`. -/
structure Game where
  id : String
  players : List Player
  currentTurn : Option String
  currentTurnType : TurnType
  pendingAttack : Option PendingAttack
  phase : Phase
  winner : Option String
  gameLog : List String
deriving DecidableEq

/-- The player pushed by `create_game` / `join_game`. -/
def newPlayer (pid pname : String) : Player :=
  { id := pid, name := pname, health := 100, maxHealth := 100,
    attack := 15, defense := 5,
    currentAttackType := none, currentDefenseType := none }

/-- The session stored by the `create_game` handler
(`src/server.js:97-117`). -/
def newGame (gid pid pname : String) : Game :=
  { id := gid, players := [newPlayer pid pname], currentTurn := none,
    currentTurnType := .attack, pendingAttack := none, phase := .waiting,
    winner := none, gameLog := ["Waiting for opponent to join..."] }

/-- The `create_game` handler (`src/server.js:94-128`).  `drawnId` is the
string produced by `generateGameId()`
(`Math.random().toString(36).substring(2, 8).toUpperCase()`): the
randomness is an oracle input.  Note that the handler stores the new
session unconditionally — there is no check against existing keys. -/
def handleCreate (R : Registry Game) (drawnId pid pname : String) : Registry Game :=
  setG R drawnId (newGame drawnId pid pname)

/-- The `join_game` handler (`src/server.js:131-183`). -/
def handleJoin (R : Registry Game) (gid pid pname : String) :
    Registry Game × HandlerOutcome :=
  match lookupG R gid with
  | none => (R, .err .gameNotFound)
  | some game =>
    if 2 ≤ game.players.length then (R, .err .gameFull)
    else
      let ps := game.players ++ [newPlayer pid pname]
      let first := ps.headD (newPlayer pid pname)
      let game' := { game with
        players := ps,
        phase := .selection,
        currentTurn := some first.id,
        currentTurnType := .attack,
        pendingAttack := none,
        gameLog := [pname ++ " joined the game. " ++ first.name
          ++ " goes first with an attack!"] }
      (setG R gid game', .ok)

/-- The `submit_attack` handler (`src/server.js:199-233`).  If the session
has no second player, the JS `defender.id` access at line 225 throws
after `currentAttackType` and `pendingAttack` are already mutated. -/
def handleSubmitAttack (R : Registry Game) (gid pid : String) (attackType : Move) :
    Registry Game × HandlerOutcome :=
  match lookupG R gid with
  | none => (R, .err .gameNotFound)
  | some game =>
    match game.players.find? (fun p => p.id == pid) with
    | none => (R, .err .playerNotFound)
    | some player =>
      if game.currentTurn ≠ some pid ∨ game.currentTurnType ≠ TurnType.attack then
        (R, .err .notYourTurn)
      else
        let g1 := { game with
          players := updateFirst Player.id game.players pid
            (fun p => { p with currentAttackType := some attackType }),
          pendingAttack := some { playerId := pid, attackType := attackType } }
        match g1.players.find? (fun p => p.id != pid) with
        | none => (setG R gid g1, .thrown)
        | some defender =>
          let g2 := { g1 with
            currentTurn := some defender.id,
            currentTurnType := .defend,
            gameLog := (player.name ++ " chose " ++ attackType.str
              ++ " attack. " ++ defender.name ++ " must choose a defense.")
              :: game.gameLog }
          (setG R gid g2, .ok)

/-- The `submit_defense` handler (`src/server.js:236-314`).  There is no
turn/phase check: the handler reads `game.pendingAttack.playerId`
directly (line 251), which throws a `TypeError` when `pendingAttack`
is `null`; likewise `attacker.attack` (line 260) throws when the
attacker has left the game, but only after the defender's
`currentDefenseType` was already mutated (line 256). -/
def handleSubmitDefense (R : Registry Game) (gid pid : String) (defenseType : Move)
    (jitter : ℕ) : Registry Game × HandlerOutcome :=
  match lookupG R gid with
  | none => (R, .err .gameNotFound)
  | some game =>
    match game.players.find? (fun p => p.id == pid) with
    | none => (R, .err .playerNotFound)
    | some defender =>
      match game.pendingAttack with
      | none => (R, .thrown)
      | some pa =>
        let attacker? := game.players.find? (fun p => p.id == pa.playerId)
        let g1 := { game with
          players := updateFirst Player.id game.players pid
            (fun p => { p with currentDefenseType := some defenseType }) }
        match attacker? with
        | none => (setG R gid g1, .thrown)
        | some attacker =>
          let eff := getEffectivenessMultiplier (some pa.attackType) (some defenseType)
          let damage := computeDamage attacker.attack eff.multiplier defender.defense jitter
          let newHealth := max 0 (defender.health - damage)
          let g2 := { g1 with
            players := updateFirst Player.id g1.players pid
              (fun p => { p with health := newHealth }) }
          let g3 := { g2 with gameLog :=
            (defender.name ++ " defended with " ++ defenseType.str ++ ".")
            :: (attacker.name ++ "\x27s " ++ pa.attackType.str ++ " attack dealt "
              ++ toString damage ++ " damage! " ++ effectivenessText eff.type)
            :: game.gameLog }
          if newHealth ≤ 0 then
            let g4 := { g3 with
              phase := .gameOver,
              winner := some attacker.id,
              gameLog := (attacker.name ++ " wins the battle!") :: g3.gameLog }
            (setG R gid g4, .ok)
          else
            let g4 := { g3 with
              currentTurn := some pid,
              currentTurnType := .attack,
              pendingAttack := none }
            (setG R gid g4, .ok)

/-- The `leave_game` handler (`src/server.js:317-348`): filters the leaver
out of `players`; if players remain, broadcasts a snapshot with
`phase=game_over` and the remaining head player as winner (the stored
session keeps its own phase/winner) and schedules deletion after
5000ms, otherwise deletes the session immediately.  The second
component is the broadcast payload, the third the deletion schedule.
The departure-line name lookup runs on the already-filtered list, so
it always falls back to `"Opponent"`. -/
def handleLeave (R : Registry Game) (gid pid : String) :
    Registry Game × Option Game × Removal :=
  match lookupG R gid with
  | none => (R, none, .noRemoval)
  | some game =>
    let g1 := { game with players := game.players.filter (fun p => p.id != pid) }
    match g1.players with
    | [] => (removeG R gid, none, .immediate)
    | otherPlayer :: _ =>
      let leaverName :=
        match g1.players.find? (fun p => p.id == pid) with
        | some p => if p.name = "" then "Opponent" else p.name
        | none => "Opponent"
      let payload := { g1 with
        phase := .gameOver,
        winner := some otherPlayer.id,
        gameLog := (leaverName ++ " left the game.") :: g1.gameLog }
      (setG R gid g1, some payload, .afterDelay 5000)

/-- Registries reachable from server start: the empty `games` object
evolved by any sequence of handler invocations (with arbitrary oracle
inputs) and firings of the scheduled deletions. -/
inductive Reach : Registry Game → Prop
  | empty : Reach []
  | create {R} (did pid pname : String) : Reach R → Reach (handleCreate R did pid pname)
  | join {R} (gid pid pname : String) : Reach R → Reach (handleJoin R gid pid pname).1
  | atk {R} (gid pid : String) (at_ : Move) : Reach R →
      Reach (handleSubmitAttack R gid pid at_).1
  | defend {R} (gid pid : String) (dt : Move) (j : ℕ) : Reach R →
      Reach (handleSubmitDefense R gid pid dt j).1
  | leave {R} (gid pid : String) : Reach R → Reach (handleLeave R gid pid).1
  | timer {R} (gid : String) : Reach R → Reach (removeG R gid)

end Alt

/-! ## The simultaneous-submission variant (`src/unnamed/part_000`) -/

namespace Sim

/-- Player record of `src/unnamed/part_000` (has the extra `ready`
flag). -/
structure Player where
  id : String
  name : String
  health : ℤ
  maxHealth : ℤ
  attack : ℤ
  defense : ℤ
  currentAttackType : Option Move
  currentDefenseType : Option Move
  ready : Bool
deriving DecidableEq

/-- Game record of `src/unnamed/part_000` (no turn type, no pending
attack buffer). -/
structure Game where
  id : String
  players : List Player
  currentTurn : Option String
  phase : Phase
  winner : Option String
  gameLog : List String
deriving DecidableEq

/-- The player pushed by `create_game` / `join_game`. -/
def newPlayer (pid pname : String) : Player :=
  { id := pid, name := pname, health := 100, maxHealth := 100,
    attack := 15, defense := 5,
    currentAttackType := none, currentDefenseType := none, ready := false }

/-- The session stored by the `create_game` handler
(`src/unnamed/part_000:186-205`). -/
def newGame (gid pid pname : String) : Game :=
  { id := gid, players := [newPlayer pid pname], currentTurn := none,
    phase := .waiting, winner := none,
    gameLog := ["Waiting for opponent to join..."] }

/-- The `create_game` handler (`src/unnamed/part_000:183-214`); `drawnId`
is the `generateGameId()` oracle. -/
def handleCreate (R : Registry Game) (drawnId pid pname : String) : Registry Game :=
  setG R drawnId (newGame drawnId pid pname)

/-- The `join_game` handler (`src/unnamed/part_000:217-258`). -/
def handleJoin (R : Registry Game) (gid pid pname : String) :
    Registry Game × HandlerOutcome :=
  match lookupG R gid with
  | none => (R, .err .gameNotFound)
  | some game =>
    if 2 ≤ game.players.length then (R, .err .gameFull)
    else
      let ps := game.players ++ [newPlayer pid pname]
      let first := ps.headD (newPlayer pid pname)
      let game' := { game with
        players := ps,
        phase := .selection,
        currentTurn := some first.id,
        gameLog := [pname ++ " joined the game. " ++ first.name ++ " goes first!"] }
      (setG R gid game', .ok)

/-- Battle resolution `processBattle` (`src/unnamed/part_000:70-177`), resolving both
buffered attacks at once.  `j1`/`j2` are the two
`Math.floor(Math.random() * 5)` jitter draws.  The source reads
`game.players[0]` and `game.players[1]`; the handler only invokes it
when every player is `ready`, which requires the two-player shape, so
the fall-through case returns the game unchanged. -/
def processBattle (game : Game) (j1 j2 : ℕ) : Game :=
  match game.players with
  | player1 :: player2 :: rest =>
    let p1Eff := getEffectivenessMultiplier player1.currentAttackType player2.currentDefenseType
    let p1Damage := computeDamage player1.attack p1Eff.multiplier player2.defense j1
    let p2Eff := getEffectivenessMultiplier player2.currentAttackType player1.currentDefenseType
    let p2Damage := computeDamage player2.attack p2Eff.multiplier player1.defense j2
    let p2Health := max 0 (player2.health - p1Damage)
    let p1Health := max 0 (player1.health - p2Damage)
    let newLog :=
      (player1.name ++ " attacks with " ++ mstr player1.currentAttackType ++ " for "
        ++ toString p1Damage ++ " damage! " ++ effectivenessText p1Eff.type)
      :: (player2.name ++ " attacks with " ++ mstr player2.currentAttackType ++ " for "
        ++ toString p2Damage ++ " damage! " ++ effectivenessText p2Eff.type)
      :: game.gameLog
    if p1Health ≤ 0 ∨ p2Health ≤ 0 then
      let winnerLog : Option String × List String :=
        if p1Health ≤ 0 ∧ p2Health ≤ 0 then
          (none, "The battle ended in a draw!" :: newLog)
        else if p1Health ≤ 0 then
          (some player2.id, (player2.name ++ " wins the battle!") :: newLog)
        else
          (some player1.id, (player1.name ++ " wins the battle!") :: newLog)
      { game with
        players := { player1 with health := p1Health }
          :: { player2 with health := p2Health } :: rest,
        phase := .gameOver,
        winner := winnerLog.1,
        gameLog := winnerLog.2 }
    else
      { game with
        players :=
          { player1 with
              health := p1Health
              currentAttackType := none
              currentDefenseType := none
              ready := false }
          :: { player2 with
              health := p2Health
              currentAttackType := none
              currentDefenseType := none
              ready := false } :: rest,
        phase := .selection,
        currentTurn := some player1.id,
        gameLog := newLog }
  | _ => game

/-- The `submit_move` handler (`src/unnamed/part_000:274-315`). -/
def handleSubmitMove (R : Registry Game) (gid pid : String)
    (attackType defenseType : Move) (j1 j2 : ℕ) : Registry Game × HandlerOutcome :=
  match lookupG R gid with
  | none => (R, .err .gameNotFound)
  | some game =>
    match game.players.find? (fun p => p.id == pid) with
    | none => (R, .err .playerNotFound)
    | some player =>
      if game.currentTurn ≠ some pid then (R, .err .notYourTurn)
      else
        let g1 := { game with
          players := updateFirst Player.id game.players pid
            (fun p => { p with
              currentAttackType := some attackType
              currentDefenseType := some defenseType
              ready := true }) }
        if g1.players.all (fun p => p.ready) then
          (setG R gid (processBattle g1 j1 j2), .ok)
        else
          let nextTurn :=
            match g1.players.find? (fun p => p.id != pid) with
            | some q => if q.id = "" then none else some q.id
            | none => none
          let g2 := { g1 with
            currentTurn := nextTurn,
            gameLog := (player.name ++ " has chosen their move. Waiting for opponent...")
              :: g1.gameLog }
          (setG R gid g2, .ok)

/-- The `leave_game` handler (`src/unnamed/part_000:318-342`).  The stored
session is not mutated at all (the leaver is neither removed nor
marked); if an opponent exists a `game_over` snapshot with that
opponent as winner is broadcast; deletion is always scheduled after
5000ms, even when the leaver was the only player. -/
def handleLeave (R : Registry Game) (gid pid : String) :
    Registry Game × Option Game × Removal :=
  match lookupG R gid with
  | none => (R, none, .noRemoval)
  | some game =>
    let payload? :=
      match game.players.find? (fun p => p.id != pid) with
      | none => none
      | some otherPlayer =>
        let leaverName :=
          match game.players.find? (fun p => p.id == pid) with
          | some p => if p.name = "" then "Opponent" else p.name
          | none => "Opponent"
        some { game with
          phase := .gameOver,
          winner := some otherPlayer.id,
          gameLog := (leaverName ++ " left the game.") :: game.gameLog }
    (R, payload?, .afterDelay 5000)

/-- Registries reachable from server start in the simultaneous
variant. -/
inductive Reach : Registry Game → Prop
  | empty : Reach []
  | create {R} (did pid pname : String) : Reach R → Reach (handleCreate R did pid pname)
  | join {R} (gid pid pname : String) : Reach R → Reach (handleJoin R gid pid pname).1
  | move {R} (gid pid : String) (at_ dt : Move) (j1 j2 : ℕ) : Reach R →
      Reach (handleSubmitMove R gid pid at_ dt j1 j2).1
  | leave {R} (gid pid : String) : Reach R → Reach (handleLeave R gid pid).1
  | timer {R} (gid : String) : Reach R → Reach (removeG R gid)

end Sim

/-! ## Concrete scenarios

A full play-through of the alternating variant, used by several
witnesses and counterexamples.  Alice ("A") creates game "G1", Bob
("B") joins.  The attacker always plays rock and the defender always
defends with scissors (super effective, damage `15*2-5+0 = 25` with
jitter 0), so Bob dies on his fourth defense. -/

def altR0 : Registry Alt.Game := Alt.handleCreate [] "G1" "A" "Alice"
def altR1 : Registry Alt.Game := (Alt.handleJoin altR0 "G1" "B" "Bob").1
def altR2 : Registry Alt.Game := (Alt.handleSubmitAttack altR1 "G1" "A" .rock).1
def altR3 : Registry Alt.Game := (Alt.handleSubmitDefense altR2 "G1" "B" .scissors 0).1
def altR4 : Registry Alt.Game := (Alt.handleSubmitAttack altR3 "G1" "B" .rock).1
def altR5 : Registry Alt.Game := (Alt.handleSubmitDefense altR4 "G1" "A" .scissors 0).1
def altR6 : Registry Alt.Game := (Alt.handleSubmitAttack altR5 "G1" "A" .rock).1
def altR7 : Registry Alt.Game := (Alt.handleSubmitDefense altR6 "G1" "B" .scissors 0).1
def altR8 : Registry Alt.Game := (Alt.handleSubmitAttack altR7 "G1" "B" .rock).1
def altR9 : Registry Alt.Game := (Alt.handleSubmitDefense altR8 "G1" "A" .scissors 0).1
def altR10 : Registry Alt.Game := (Alt.handleSubmitAttack altR9 "G1" "A" .rock).1
def altR11 : Registry Alt.Game := (Alt.handleSubmitDefense altR10 "G1" "B" .scissors 0).1
def altR12 : Registry Alt.Game := (Alt.handleSubmitAttack altR11 "G1" "B" .rock).1
def altR13 : Registry Alt.Game := (Alt.handleSubmitDefense altR12 "G1" "A" .scissors 0).1
def altR14 : Registry Alt.Game := (Alt.handleSubmitAttack altR13 "G1" "A" .rock).1

/-- After this defense Bob's health reaches 0: game over, winner "A". -/
def altR15 : Registry Alt.Game := (Alt.handleSubmitDefense altR14 "G1" "B" .scissors 0).1

/-- Bob leaves the finished game: the stored session keeps
`phase = game_over`, `winner = "A"`, with only Alice left. -/
def altR16 : Registry Alt.Game := (Alt.handleLeave altR15 "G1" "B").1

/-- Carol joins the finished one-player session during the deletion
grace window: `join_game` only checks the player count, so it resets
the phase to `selection` while leaving `winner = "A"` in place. -/
def altR17 : Registry Alt.Game := (Alt.handleJoin altR16 "G1" "C" "Carol").1

/-- Registry holding one session under id "ABC123", for the id
collision scenario. -/
def collideR : Registry Alt.Game := Alt.handleCreate [] "ABC123" "p1" "Alice"

/-- Simultaneous-variant session with one player, for the leave
scenario. -/
def simSolo : Registry Sim.Game := Sim.handleCreate [] "G1" "A" "Alice"

/-- Simultaneous-variant session after Bob joins. -/
def simDuo : Registry Sim.Game := (Sim.handleJoin simSolo "G1" "B" "Bob").1

/-- The session stored in `altR1` (game "G1" right after Bob joined),
written out. -/
def altG1 : Alt.Game :=
  { id := "G1",
    players := [Alt.newPlayer "A" "Alice", Alt.newPlayer "B" "Bob"],
    currentTurn := some "A", currentTurnType := .attack,
    pendingAttack := none, phase := .selection, winner := none,
    gameLog := ["Bob joined the game. Alice goes first with an attack!"] }

/-- The session stored in `simDuo`, written out. -/
def simG1 : Sim.Game :=
  { id := "G1",
    players := [Sim.newPlayer "A" "Alice", Sim.newPlayer "B" "Bob"],
    currentTurn := some "A", phase := .selection, winner := none,
    gameLog := ["Bob joined the game. Alice goes first!"] }

/-- Players at 3 health with rock attack/rock defense buffered: the
next resolution deals 10 damage each way and both healths clamp to
0 — a draw. -/
def wAlice : Sim.Player :=
  { id := "A", name := "Alice", health := 3, maxHealth := 100, attack := 15,
    defense := 5, currentAttackType := some .rock,
    currentDefenseType := some .rock, ready := true }

def wBob : Sim.Player :=
  { id := "B", name := "Bob", health := 3, maxHealth := 100, attack := 15,
    defense := 5, currentAttackType := some .rock,
    currentDefenseType := some .rock, ready := true }

def drawG : Sim.Game :=
  { id := "G1", players := [wAlice, wBob], currentTurn := some "B",
    phase := .selection, winner := none, gameLog := [] }

/-- Same matchup but Alice at 50 health: only Bob dies. -/
def loseG : Sim.Game :=
  { id := "G1", players := [{ wAlice with health := 50 }, wBob],
    currentTurn := some "B", phase := .selection, winner := none, gameLog := [] }

/-- Same matchup at full health: the next resolution deals 10 damage
each way and is non-terminal. -/
def simBattleG : Sim.Game :=
  { id := "G1", players := [{ wAlice with health := 100 }, { wBob with health := 100 }],
    currentTurn := some "B", phase := .selection, winner := none, gameLog := [] }

/-- The session stored in `altR2` (Alice's rock attack buffered, Bob
to defend), written out. -/
def altG2 : Alt.Game :=
  { id := "G1",
    players := [{ Alt.newPlayer "A" "Alice" with currentAttackType := some .rock },
      Alt.newPlayer "B" "Bob"],
    currentTurn := some "B", currentTurnType := .defend,
    pendingAttack := some { playerId := "A", attackType := .rock },
    phase := .selection, winner := none,
    gameLog := ["Alice chose rock attack. Bob must choose a defense.",
      "Bob joined the game. Alice goes first with an attack!"] }

/-- Bob after defending with scissors against the rock attack
(super effective, 25 damage). -/
def altD3 : Alt.Player :=
  { Alt.newPlayer "B" "Bob" with currentDefenseType := some .scissors, health := 75 }

/-- The session stored in `altR3` (after the first non-terminal
resolution), written out. -/
def altG3 : Alt.Game :=
  { id := "G1",
    players := [{ Alt.newPlayer "A" "Alice" with currentAttackType := some .rock }, altD3],
    currentTurn := some "B", currentTurnType := .attack,
    pendingAttack := none, phase := .selection, winner := none,
    gameLog := ["Bob defended with scissors.",
      "Alice\x27s rock attack dealt 25 damage! It\x27s super effective!",
      "Alice chose rock attack. Bob must choose a defense.",
      "Bob joined the game. Alice goes first with an attack!"] }

/-- Alternating-variant session in which Bob is at 3 health with
Alice's rock attack buffered: the next defense is lethal. -/
def altKillG : Alt.Game :=
  { id := "G1",
    players := [{ Alt.newPlayer "A" "Alice" with currentAttackType := some .rock },
      { Alt.newPlayer "B" "Bob" with health := 3 }],
    currentTurn := some "B", currentTurnType := .defend,
    pendingAttack := some { playerId := "A", attackType := .rock },
    phase := .selection, winner := none, gameLog := [] }

def altKillR : Registry Alt.Game := [("G1", altKillG)]

/-- The session after Bob's lethal scissors defense: game over,
Alice declared winner. -/
def altKillG2 : Alt.Game :=
  { id := "G1",
    players := [{ Alt.newPlayer "A" "Alice" with currentAttackType := some .rock },
      { Alt.newPlayer "B" "Bob" with health := 0, currentDefenseType := some .scissors }],
    currentTurn := some "B", currentTurnType := .defend,
    pendingAttack := some { playerId := "A", attackType := .rock },
    phase := .gameOver, winner := some "A",
    gameLog := ["Alice wins the battle!", "Bob defended with scissors.",
      "Alice\x27s rock attack dealt 25 damage! It\x27s super effective!"] }


/-! ## Basic lemmas -/

theorem SUPER_EFFECTIVE_val : SUPER_EFFECTIVE = 2.0 := by norm_num [SUPER_EFFECTIVE]

theorem NORMAL_EFFECTIVE_val : NORMAL_EFFECTIVE = 1.0 := by norm_num [NORMAL_EFFECTIVE]

theorem NOT_EFFECTIVE_val : NOT_EFFECTIVE = 0.5 := by
  rw [NOT_EFFECTIVE, Rat.mk'_eq_divInt, Rat.divInt_eq_div]
  norm_num

/-- The executable damage definition agrees with the literal
`Math.max(5, Math.floor(attack * multiplier - defense + jitter))`
of the source. -/
theorem computeDamage_eq_floor (attack : ℤ) (mult : ℚ) (defense : ℤ) (jitter : ℕ) :
    computeDamage attack mult defense jitter
      = max 5 ⌊(attack : ℚ) * mult - (defense : ℚ) + (jitter : ℚ)⌋ := by
  have h1 : (attack : ℚ) * mult = ((attack * mult.num : ℤ) : ℚ) / ((mult.den : ℕ) : ℚ) := by
    push_cast
    rw [mul_div_assoc, Rat.num_div_den]
  rw [computeDamage, h1]
  rw [show ((defense : ℚ)) = ((defense : ℤ) : ℚ) from rfl,
    Int.floor_add_nat, Int.floor_sub_int, Rat.floor_intCast_div_natCast]

theorem lookupG_setG_self {G : Type} (R : Registry G) (k : String) (g : G) :
    lookupG (setG R k g) k = some g := by
  induction R with
  | nil => simp [setG, lookupG]
  | cons e rest ih =>
    obtain ⟨k', v⟩ := e
    by_cases h : k' = k
    · simp [setG, h, lookupG]
    · simp [setG, h, lookupG, ih]

theorem lookupG_setG_ne {G : Type} (R : Registry G) {k k' : String} (g : G)
    (h : k' ≠ k) : lookupG (setG R k g) k' = lookupG R k' := by
  have hkk : k ≠ k' := Ne.symm h
  induction R with
  | nil => simp [setG, lookupG, hkk]
  | cons e rest ih =>
    obtain ⟨k₀, v⟩ := e
    by_cases h₀ : k₀ = k
    · subst h₀
      simp [setG, lookupG, hkk]
    · simp [setG, h₀, lookupG, ih]

theorem mem_setG {G : Type} {R : Registry G} {k : String} {g : G}
    {e : String × G} (he : e ∈ setG R k g) : e ∈ R ∨ e = (k, g) := by
  induction R with
  | nil =>
    rw [setG] at he
    exact Or.inr (List.mem_singleton.mp he)
  | cons e₀ rest ih =>
    obtain ⟨k₀, v⟩ := e₀
    by_cases h : k₀ = k
    · rw [setG, if_pos h] at he
      rcases List.mem_cons.mp he with ha | ha
      · exact Or.inr ha
      · exact Or.inl (List.mem_cons_of_mem _ ha)
    · rw [setG, if_neg h] at he
      rcases List.mem_cons.mp he with ha | ha
      · exact Or.inl (ha ▸ List.mem_cons_self _ _)
      · rcases ih ha with hb | hb
        · exact Or.inl (List.mem_cons_of_mem _ hb)
        · exact Or.inr hb

theorem mem_removeG {G : Type} {R : Registry G} {k : String}
    {e : String × G} (he : e ∈ removeG R k) : e ∈ R := by
  exact (List.mem_filter.mp he).1

theorem lookupG_mem {G : Type} {R : Registry G} {k : String} {g : G}
    (h : lookupG R k = some g) : (k, g) ∈ R := by
  induction R with
  | nil => simp [lookupG] at h
  | cons e rest ih =>
    obtain ⟨k₀, v⟩ := e
    by_cases h₀ : k₀ = k
    · subst h₀
      rw [lookupG, if_pos rfl] at h
      rw [Option.some_inj.mp h]
      exact List.mem_cons_self _ _
    · rw [lookupG, if_neg h₀] at h
      exact List.mem_cons_of_mem _ (ih h)

theorem updateFirst_length {P : Type} (getId : P → String) (ps : List P)
    (pid : String) (f : P → P) :
    (updateFirst getId ps pid f).length = ps.length := by
  induction ps with
  | nil => rfl
  | cons p rest ih =>
    by_cases h : getId p = pid
    · simp [updateFirst, h]
    · simp [updateFirst, h, ih]

theorem updateFirst_map {P A : Type} (getId : P → String) (ps : List P)
    (pid : String) (f : P → P) (proj : P → A)
    (hf : ∀ p, proj (f p) = proj p) :
    (updateFirst getId ps pid f).map proj = ps.map proj := by
  induction ps with
  | nil => rfl
  | cons p rest ih =>
    by_cases h : getId p = pid
    · simp [updateFirst, h, hf]
    · simp [updateFirst, h, ih]

theorem updateFirst_find? {P : Type} (getId : P → String) (ps : List P)
    (pid : String) (f : P → P) (hf : ∀ p, getId (f p) = getId p) :
    (updateFirst getId ps pid f).find? (fun p => getId p == pid)
      = Option.map f (ps.find? (fun p => getId p == pid)) := by
  induction ps with
  | nil => rfl
  | cons p rest ih =>
    by_cases h : getId p = pid
    · have hb : (getId (f p) == pid) = true := by simp [hf, h]
      have hb' : (getId p == pid) = true := by simp [h]
      simp [updateFirst, h, List.find?, hb, hb']
    · have hb : (getId p == pid) = false := by simp [h]
      simp [updateFirst, h, List.find?, hb, ih]

/-- Searching a list filtered on `id != pid` for `id == pid` finds
nothing (the departure-line name lookup of the alternating `leave_game`
handler runs on the already-filtered list). -/
theorem find?_filter_ne {P : Type} (getId : P → String) (ps : List P) (pid : String) :
    (ps.filter (fun p => getId p != pid)).find? (fun p => getId p == pid) = none := by
  rw [List.find?_eq_none]
  intro x hx
  have hne := (List.mem_filter.mp hx).2
  simp only [bne_iff_ne, ne_eq] at hne
  simp [hne]

/-- Resolution `processBattle` changes the winner field only when it also sets
the phase to `game_over`. -/
theorem processBattle_winner_change (g : Sim.Game) (j1 j2 : ℕ)
    (h : (Sim.processBattle g j1 j2).winner ≠ g.winner) :
    (Sim.processBattle g j1 j2).phase = Phase.gameOver := by
  cases hp : g.players with
  | nil =>
    simp only [Sim.processBattle, hp] at h
    exact absurd rfl h
  | cons p1 t =>
    cases t with
    | nil =>
      simp only [Sim.processBattle, hp] at h
      exact absurd rfl h
    | cons p2 rest =>
      simp only [Sim.processBattle, hp] at h ⊢
      split at h
      case isTrue hterm =>
        rw [if_pos hterm]
      case isFalse hsurv =>
        exact absurd rfl h

/-! ## Claims -/

/-- Claim C1: the effectiveness resolver is a pure total function on
move pairs obeying the cyclic dominance table: every diagonal pair
resolves to tier `normal` with multiplier 1.0; (rock, scissors),
(scissors, paper) and (paper, rock) resolve to tier `super` with
multiplier 2.0; the three remaining (reverse) pairs resolve to tier
`not` with multiplier 0.5. -/
theorem effectiveness_table :
    (∀ a : Move, getEffectivenessMultiplier (some a) (some a)
      = { multiplier := 1.0, type := .normal })
    ∧ getEffectivenessMultiplier (some .rock) (some .scissors)
      = { multiplier := 2.0, type := .super }
    ∧ getEffectivenessMultiplier (some .scissors) (some .paper)
      = { multiplier := 2.0, type := .super }
    ∧ getEffectivenessMultiplier (some .paper) (some .rock)
      = { multiplier := 2.0, type := .super }
    ∧ getEffectivenessMultiplier (some .scissors) (some .rock)
      = { multiplier := 0.5, type := .not }
    ∧ getEffectivenessMultiplier (some .paper) (some .scissors)
      = { multiplier := 0.5, type := .not }
    ∧ getEffectivenessMultiplier (some .rock) (some .paper)
      = { multiplier := 0.5, type := .not } := by
  refine ⟨fun a => ?_, ?_, ?_, ?_, ?_, ?_, ?_⟩
  · cases a <;>
      simp [getEffectivenessMultiplier, NORMAL_EFFECTIVE_val]
  all_goals
    simp [getEffectivenessMultiplier, SUPER_EFFECTIVE_val, NOT_EFFECTIVE_val]

/-- Claim C2: for every attack stat, effectiveness multiplier, defense
stat and jitter in `[0, 5)`, the computed damage equals
`max(5, floor(attack * multiplier - defense + jitter))` and is always
at least 5, even when `attack * multiplier - defense` is deeply
negative. -/
theorem damage_formula_and_floor (attack : ℤ) (mult : ℚ) (defense : ℤ)
    (jitter : ℕ) (hj : jitter < 5) :
    computeDamage attack mult defense jitter
      = max 5 ⌊(attack : ℚ) * mult - (defense : ℚ) + (jitter : ℚ)⌋
    ∧ 5 ≤ computeDamage attack mult defense jitter :=
  ⟨computeDamage_eq_floor attack mult defense jitter, le_max_left _ _⟩

/-- Witness for C2 at attack `-1000`, multiplier 2, defense 5000,
jitter 0: the product term is deeply negative yet damage is clamped
to 5. -/
theorem damage_formula_and_floor_witness :
    (0 : ℕ) < 5
    ∧ (computeDamage (-1000) SUPER_EFFECTIVE 5000 0
        = max 5 ⌊((-1000 : ℤ) : ℚ) * SUPER_EFFECTIVE - ((5000 : ℤ) : ℚ) + ((0 : ℕ) : ℚ)⌋
      ∧ 5 ≤ computeDamage (-1000) SUPER_EFFECTIVE 5000 0) :=
  ⟨by decide, damage_formula_and_floor (-1000) SUPER_EFFECTIVE 5000 0 (by decide)⟩

/-- Claim C5 (code bug): in the alternating variant a `submit_defense`
arriving when no pending attack is buffered is NOT turned into a
`NotYourTurn`/`InvalidState` error: the handler reads
`game.pendingAttack.playerId` (src/server.js:251) with no guard, so
the `TypeError` escapes the handler boundary (outcome `thrown`).
The registry is left unchanged only because the throw happens before
any mutation.  Concretely: right after Bob joins the fresh game
("G1" in phase `selection`, `pendingAttack = null`), Bob submits a
defense. -/
theorem defense_without_pending_throws :
    Alt.handleSubmitDefense altR1 "G1" "B" Move.rock 0
      = (altR1, HandlerOutcome.thrown) := by decide

/-- Claim C9 (code bug): `generateGameId` draws
`Math.random().toString(36).substring(2, 8).toUpperCase()` with no
check against existing keys and no retry, and `create_game` assigns
`games[gameId]` unconditionally, so a colliding draw overwrites the
existing session: creating over the stored session "ABC123" leaves a
registry whose only entry is the new session. -/
theorem create_overwrites :
    Alt.handleCreate collideR "ABC123" "p2" "Bob"
      = [("ABC123", Alt.newGame "ABC123" "p2" "Bob")]
    ∧ lookupG collideR "ABC123" = some (Alt.newGame "ABC123" "p1" "Alice") := by
  constructor
  · decide
  · decide

/-- Claim C3: in the simultaneous variant, after a battle resolution in
which both players' resulting healths are ≤ 0 the session's winner is
the draw marker (`none`) and the phase is `game_over`; if exactly one
resulting health is ≤ 0 the winner is the other player's id and the
phase is `game_over`. -/
theorem battle_outcome (g : Sim.Game) (j1 j2 : ℕ) (p1 p2 : Sim.Player)
    (rest : List Sim.Player) (hp : g.players = p1 :: p2 :: rest)
    (q1 q2 : Sim.Player) (qrest : List Sim.Player)
    (hq : (Sim.processBattle g j1 j2).players = q1 :: q2 :: qrest) :
    ((q1.health ≤ 0 ∧ q2.health ≤ 0) →
      (Sim.processBattle g j1 j2).winner = none
      ∧ (Sim.processBattle g j1 j2).phase = .gameOver)
    ∧ ((q1.health ≤ 0 ∧ 0 < q2.health) →
      (Sim.processBattle g j1 j2).winner = some q2.id
      ∧ (Sim.processBattle g j1 j2).phase = .gameOver)
    ∧ ((0 < q1.health ∧ q2.health ≤ 0) →
      (Sim.processBattle g j1 j2).winner = some q1.id
      ∧ (Sim.processBattle g j1 j2).phase = .gameOver) := by
  simp only [Sim.processBattle, hp] at hq ⊢
  split at hq
  case isTrue hterm =>
    rw [if_pos hterm]
    obtain ⟨e1, hq⟩ := List.cons_eq_cons.mp hq
    obtain ⟨e2, -⟩ := List.cons_eq_cons.mp hq
    have hq1 : q1.health = max 0 (p1.health - computeDamage p2.attack
        (getEffectivenessMultiplier p2.currentAttackType p1.currentDefenseType).multiplier
        p1.defense j2) := by rw [← e1]
    have hq2 : q2.health = max 0 (p2.health - computeDamage p1.attack
        (getEffectivenessMultiplier p1.currentAttackType p2.currentDefenseType).multiplier
        p2.defense j1) := by rw [← e2]
    have hid1 : q1.id = p1.id := by rw [← e1]
    have hid2 : q2.id = p2.id := by rw [← e2]
    refine ⟨fun hc => ?_, fun hc => ?_, fun hc => ?_⟩
    · rw [if_pos (show _ ∧ _ by omega)]
      exact ⟨rfl, rfl⟩
    · rw [if_neg (show ¬(_ ∧ _) by omega), if_pos (show _ by omega)]
      exact ⟨by rw [hid2], rfl⟩
    · rw [if_neg (show ¬(_ ∧ _) by omega), if_neg (show ¬_ by omega)]
      exact ⟨by rw [hid1], rfl⟩
  case isFalse hsurv =>
    rw [if_neg hsurv]
    obtain ⟨e1, hq⟩ := List.cons_eq_cons.mp hq
    obtain ⟨e2, -⟩ := List.cons_eq_cons.mp hq
    have hq1 : q1.health = max 0 (p1.health - computeDamage p2.attack
        (getEffectivenessMultiplier p2.currentAttackType p1.currentDefenseType).multiplier
        p1.defense j2) := by rw [← e1]
    have hq2 : q2.health = max 0 (p2.health - computeDamage p1.attack
        (getEffectivenessMultiplier p1.currentAttackType p2.currentDefenseType).multiplier
        p2.defense j1) := by rw [← e2]
    exact ⟨fun hc => absurd hc (by omega), fun hc => absurd hc (by omega),
      fun hc => absurd hc (by omega)⟩

/-- Witness for C3: with both players at 3 health and rock-vs-rock
moves the resolution deals 10 damage each way (both healths clamp to
0, a draw); with Alice at 50 health only Bob dies and Alice wins. -/
theorem battle_outcome_witness :
    ((Sim.processBattle drawG 0 0).winner = none
      ∧ (Sim.processBattle drawG 0 0).phase = .gameOver)
    ∧ ((Sim.processBattle loseG 0 0).winner = some "A"
      ∧ (Sim.processBattle loseG 0 0).phase = .gameOver) := by
  constructor
  · exact (battle_outcome drawG 0 0 wAlice wBob [] (by decide)
      { wAlice with health := 0 } { wBob with health := 0 } [] (by decide)).1
      ⟨by decide, by decide⟩
  · exact (battle_outcome loseG 0 0 { wAlice with health := 50 } wBob [] (by decide)
      { wAlice with health := 40 } { wBob with health := 0 } [] (by decide)).2.2
      ⟨by decide, by decide⟩

/-- Claim C4: a move submission (`submit_move` in the simultaneous
variant, `submit_attack` in the alternating one) naming an unknown
session, a player not in the session, or a submitter who is not the
turn holder (including wrong `turnMode` in the alternating variant)
reports `SessionNotFound` / `PlayerNotFound` / `NotYourTurn` on the
requesting socket and returns the registry — hence every session —
entirely unchanged. -/
theorem submit_nonturn_rejected :
    (∀ (R : Registry Sim.Game) (gid pid : String) (a d : Move) (j1 j2 : ℕ),
      lookupG R gid = none →
        Sim.handleSubmitMove R gid pid a d j1 j2 = (R, .err .gameNotFound))
    ∧ (∀ (R : Registry Sim.Game) (gid pid : String) (a d : Move) (j1 j2 : ℕ)
        (g : Sim.Game),
      lookupG R gid = some g →
      g.players.find? (fun p => p.id == pid) = none →
        Sim.handleSubmitMove R gid pid a d j1 j2 = (R, .err .playerNotFound))
    ∧ (∀ (R : Registry Sim.Game) (gid pid : String) (a d : Move) (j1 j2 : ℕ)
        (g : Sim.Game) (p : Sim.Player),
      lookupG R gid = some g →
      g.players.find? (fun q => q.id == pid) = some p →
      g.currentTurn ≠ some pid →
        Sim.handleSubmitMove R gid pid a d j1 j2 = (R, .err .notYourTurn))
    ∧ (∀ (R : Registry Alt.Game) (gid pid : String) (a : Move),
      lookupG R gid = none →
        Alt.handleSubmitAttack R gid pid a = (R, .err .gameNotFound))
    ∧ (∀ (R : Registry Alt.Game) (gid pid : String) (a : Move) (g : Alt.Game),
      lookupG R gid = some g →
      g.players.find? (fun p => p.id == pid) = none →
        Alt.handleSubmitAttack R gid pid a = (R, .err .playerNotFound))
    ∧ (∀ (R : Registry Alt.Game) (gid pid : String) (a : Move) (g : Alt.Game)
        (p : Alt.Player),
      lookupG R gid = some g →
      g.players.find? (fun q => q.id == pid) = some p →
      (g.currentTurn ≠ some pid ∨ g.currentTurnType ≠ Alt.TurnType.attack) →
        Alt.handleSubmitAttack R gid pid a = (R, .err .notYourTurn)) := by
  refine ⟨?_, ?_, ?_, ?_, ?_, ?_⟩
  · intro R gid pid a d j1 j2 h
    simp only [Sim.handleSubmitMove, h]
  · intro R gid pid a d j1 j2 g h1 h2
    simp only [Sim.handleSubmitMove, h1, h2]
  · intro R gid pid a d j1 j2 g p h1 h2 h3
    simp only [Sim.handleSubmitMove, h1, h2]
    rw [if_pos h3]
  · intro R gid pid a h
    simp only [Alt.handleSubmitAttack, h]
  · intro R gid pid a g h1 h2
    simp only [Alt.handleSubmitAttack, h1, h2]
  · intro R gid pid a g p h1 h2 h3
    simp only [Alt.handleSubmitAttack, h1, h2]
    rw [if_pos h3]

/-- Witness for C4: an outsider "Z" submitting a move in the
one-player simultaneous game is rejected with `PlayerNotFound`, and
Bob submitting an attack in the alternating game while it is Alice's
attack turn is rejected with `NotYourTurn`; both leave the registry
unchanged. -/
theorem submit_nonturn_rejected_witness :
    Sim.handleSubmitMove simSolo "G1" "Z" Move.rock Move.rock 0 0
      = (simSolo, .err .playerNotFound)
    ∧ Alt.handleSubmitAttack altR1 "G1" "B" Move.rock
      = (altR1, .err .notYourTurn) := by
  constructor
  · exact submit_nonturn_rejected.2.1 simSolo "G1" "Z" Move.rock Move.rock 0 0
      (Sim.newGame "G1" "A" "Alice") (by decide) (by decide)
  · exact submit_nonturn_rejected.2.2.2.2.2 altR1 "G1" "B" Move.rock altG1
      (Alt.newPlayer "B" "Bob") (by decide) (by decide) (by decide)

/-! Capacity preservation lemmas for C6. -/

theorem altCapacity_create (R : Registry Alt.Game) (did pid pname : String)
    (h : ∀ e ∈ R, e.2.players.length ≤ 2) :
    ∀ e ∈ Alt.handleCreate R did pid pname, e.2.players.length ≤ 2 := by
  intro e he
  rcases mem_setG he with h1 | h1
  · exact h e h1
  · rw [h1]
    simp [Alt.newGame]

theorem altCapacity_join (R : Registry Alt.Game) (gid pid pname : String)
    (h : ∀ e ∈ R, e.2.players.length ≤ 2) :
    ∀ e ∈ (Alt.handleJoin R gid pid pname).1, e.2.players.length ≤ 2 := by
  intro e he
  cases hl : lookupG R gid with
  | none =>
    simp only [Alt.handleJoin, hl] at he
    exact h e he
  | some g =>
    by_cases hfull : 2 ≤ g.players.length
    · simp only [Alt.handleJoin, hl, if_pos hfull] at he
      exact h e he
    · simp only [Alt.handleJoin, hl, if_neg hfull] at he
      rcases mem_setG he with h1 | h1
      · exact h e h1
      · rw [h1]
        simp only [List.length_append, List.length_cons, List.length_nil]
        omega

theorem altCapacity_attack (R : Registry Alt.Game) (gid pid : String) (a : Move)
    (h : ∀ e ∈ R, e.2.players.length ≤ 2) :
    ∀ e ∈ (Alt.handleSubmitAttack R gid pid a).1, e.2.players.length ≤ 2 := by
  intro e he
  cases hl : lookupG R gid with
  | none =>
    simp only [Alt.handleSubmitAttack, hl] at he
    exact h e he
  | some g =>
    have hg : g.players.length ≤ 2 := h (gid, g) (lookupG_mem hl)
    cases hf : g.players.find? (fun p => p.id == pid) with
    | none =>
      simp only [Alt.handleSubmitAttack, hl, hf] at he
      exact h e he
    | some player =>
      by_cases ht : g.currentTurn ≠ some pid ∨ g.currentTurnType ≠ Alt.TurnType.attack
      · simp only [Alt.handleSubmitAttack, hl, hf, if_pos ht] at he
        exact h e he
      · simp only [Alt.handleSubmitAttack, hl, hf, if_neg ht] at he
        cases hd : (updateFirst Alt.Player.id g.players pid
            (fun p => { p with currentAttackType := some a })).find?
            (fun p => p.id != pid) with
        | none =>
          rw [hd] at he
          rcases mem_setG he with h1 | h1
          · exact h e h1
          · rw [h1]
            simpa [updateFirst_length] using hg
        | some defender =>
          rw [hd] at he
          rcases mem_setG he with h1 | h1
          · exact h e h1
          · rw [h1]
            simpa [updateFirst_length] using hg

theorem altCapacity_defense (R : Registry Alt.Game) (gid pid : String) (dt : Move)
    (j : ℕ) (h : ∀ e ∈ R, e.2.players.length ≤ 2) :
    ∀ e ∈ (Alt.handleSubmitDefense R gid pid dt j).1, e.2.players.length ≤ 2 := by
  intro e he
  cases hl : lookupG R gid with
  | none =>
    simp only [Alt.handleSubmitDefense, hl] at he
    exact h e he
  | some g =>
    have hg : g.players.length ≤ 2 := h (gid, g) (lookupG_mem hl)
    cases hf : g.players.find? (fun p => p.id == pid) with
    | none =>
      simp only [Alt.handleSubmitDefense, hl, hf] at he
      exact h e he
    | some defender =>
      cases hpa : g.pendingAttack with
      | none =>
        simp only [Alt.handleSubmitDefense, hl, hf, hpa] at he
        exact h e he
      | some pa =>
        simp only [Alt.handleSubmitDefense, hl, hf, hpa] at he
        cases ha : g.players.find? (fun p => p.id == pa.playerId) with
        | none =>
          rw [ha] at he
          rcases mem_setG he with h1 | h1
          · exact h e h1
          · rw [h1]
            simpa [updateFirst_length] using hg
        | some attacker =>
          rw [ha] at he
          rw [apply_ite (Prod.fst (α := Registry Alt.Game) (β := HandlerOutcome))] at he
          split at he
          · rcases mem_setG he with h1 | h1
            · exact h e h1
            · rw [h1]
              simpa [updateFirst_length] using hg
          · rcases mem_setG he with h1 | h1
            · exact h e h1
            · rw [h1]
              simpa [updateFirst_length] using hg

theorem altCapacity_leave (R : Registry Alt.Game) (gid pid : String)
    (h : ∀ e ∈ R, e.2.players.length ≤ 2) :
    ∀ e ∈ (Alt.handleLeave R gid pid).1, e.2.players.length ≤ 2 := by
  intro e he
  cases hl : lookupG R gid with
  | none =>
    simp only [Alt.handleLeave, hl] at he
    exact h e he
  | some g =>
    have hg : g.players.length ≤ 2 := h (gid, g) (lookupG_mem hl)
    simp only [Alt.handleLeave, hl] at he
    cases hfil : g.players.filter (fun p => p.id != pid) with
    | nil =>
      rw [hfil] at he
      exact h e (mem_removeG he)
    | cons q qs =>
      rw [hfil] at he
      rcases mem_setG he with h1 | h1
      · exact h e h1
      · rw [h1]
        have hle := List.length_filter_le (fun p => p.id != pid) g.players
        rw [hfil] at hle
        show (q :: qs).length ≤ 2
        omega

theorem altCapacity_reach (R : Registry Alt.Game) (h : Alt.Reach R) :
    ∀ e ∈ R, e.2.players.length ≤ 2 := by
  induction h with
  | empty => intro e he; exact absurd he (List.not_mem_nil e)
  | create did pid pname _ ih => exact altCapacity_create _ did pid pname ih
  | join gid pid pname _ ih => exact altCapacity_join _ gid pid pname ih
  | atk gid pid a _ ih => exact altCapacity_attack _ gid pid a ih
  | defend gid pid dt j _ ih => exact altCapacity_defense _ gid pid dt j ih
  | leave gid pid _ ih => exact altCapacity_leave _ gid pid ih
  | timer gid _ ih => exact fun e he => ih e (mem_removeG he)

theorem Sim.processBattle_length (g : Sim.Game) (j1 j2 : ℕ) :
    (Sim.processBattle g j1 j2).players.length = g.players.length := by
  cases hp : g.players with
  | nil => simp [Sim.processBattle, hp]
  | cons p1 t =>
    cases t with
    | nil => simp [Sim.processBattle, hp]
    | cons p2 rest =>
      simp only [Sim.processBattle, hp]
      split <;> simp

theorem simCapacity_create (R : Registry Sim.Game) (did pid pname : String)
    (h : ∀ e ∈ R, e.2.players.length ≤ 2) :
    ∀ e ∈ Sim.handleCreate R did pid pname, e.2.players.length ≤ 2 := by
  intro e he
  rcases mem_setG he with h1 | h1
  · exact h e h1
  · rw [h1]
    simp [Sim.newGame]

theorem simCapacity_join (R : Registry Sim.Game) (gid pid pname : String)
    (h : ∀ e ∈ R, e.2.players.length ≤ 2) :
    ∀ e ∈ (Sim.handleJoin R gid pid pname).1, e.2.players.length ≤ 2 := by
  intro e he
  cases hl : lookupG R gid with
  | none =>
    simp only [Sim.handleJoin, hl] at he
    exact h e he
  | some g =>
    by_cases hfull : 2 ≤ g.players.length
    · simp only [Sim.handleJoin, hl, if_pos hfull] at he
      exact h e he
    · simp only [Sim.handleJoin, hl, if_neg hfull] at he
      rcases mem_setG he with h1 | h1
      · exact h e h1
      · rw [h1]
        simp only [List.length_append, List.length_cons, List.length_nil]
        omega

theorem simCapacity_move (R : Registry Sim.Game) (gid pid : String)
    (a d : Move) (j1 j2 : ℕ) (h : ∀ e ∈ R, e.2.players.length ≤ 2) :
    ∀ e ∈ (Sim.handleSubmitMove R gid pid a d j1 j2).1, e.2.players.length ≤ 2 := by
  intro e he
  cases hl : lookupG R gid with
  | none =>
    simp only [Sim.handleSubmitMove, hl] at he
    exact h e he
  | some g =>
    have hg : g.players.length ≤ 2 := h (gid, g) (lookupG_mem hl)
    cases hf : g.players.find? (fun p => p.id == pid) with
    | none =>
      simp only [Sim.handleSubmitMove, hl, hf] at he
      exact h e he
    | some player =>
      by_cases ht : g.currentTurn ≠ some pid
      · simp only [Sim.handleSubmitMove, hl, hf, if_pos ht] at he
        exact h e he
      · simp only [Sim.handleSubmitMove, hl, hf, if_neg ht] at he
        rw [apply_ite (Prod.fst (α := Registry Sim.Game) (β := HandlerOutcome))] at he
        split at he
        · rcases mem_setG he with h1 | h1
          · exact h e h1
          · rw [h1]
            simp only [Sim.processBattle_length]
            simpa [updateFirst_length] using hg
        · rcases mem_setG he with h1 | h1
          · exact h e h1
          · rw [h1]
            simpa [updateFirst_length] using hg

theorem simCapacity_leave (R : Registry Sim.Game) (gid pid : String)
    (h : ∀ e ∈ R, e.2.players.length ≤ 2) :
    ∀ e ∈ (Sim.handleLeave R gid pid).1, e.2.players.length ≤ 2 := by
  intro e he
  cases hl : lookupG R gid with
  | none =>
    simp only [Sim.handleLeave, hl] at he
    exact h e he
  | some g =>
    simp only [Sim.handleLeave, hl] at he
    exact h e he

theorem simCapacity_reach (R : Registry Sim.Game) (h : Sim.Reach R) :
    ∀ e ∈ R, e.2.players.length ≤ 2 := by
  induction h with
  | empty => intro e he; exact absurd he (List.not_mem_nil e)
  | create did pid pname _ ih => exact simCapacity_create _ did pid pname ih
  | join gid pid pname _ ih => exact simCapacity_join _ gid pid pname ih
  | move gid pid a d j1 j2 _ ih => exact simCapacity_move _ gid pid a d j1 j2 ih
  | leave gid pid _ ih => exact simCapacity_leave _ gid pid ih
  | timer gid _ ih => exact fun e he => ih e (mem_removeG he)

/-- Claim C6: every reachable session has at most 2 players, and a
`join_game` on a session that already has 2 players fails with the
`Full` error and leaves the registry (player count included)
unchanged — in both variants. -/
theorem session_capacity :
    (∀ R : Registry Alt.Game, Alt.Reach R →
      ∀ gid g, lookupG R gid = some g → g.players.length ≤ 2)
    ∧ (∀ R : Registry Sim.Game, Sim.Reach R →
      ∀ gid g, lookupG R gid = some g → g.players.length ≤ 2)
    ∧ (∀ (R : Registry Alt.Game) (gid pid pname : String) (g : Alt.Game),
      lookupG R gid = some g → 2 ≤ g.players.length →
        Alt.handleJoin R gid pid pname = (R, .err .gameFull))
    ∧ (∀ (R : Registry Sim.Game) (gid pid pname : String) (g : Sim.Game),
      lookupG R gid = some g → 2 ≤ g.players.length →
        Sim.handleJoin R gid pid pname = (R, .err .gameFull)) := by
  refine ⟨?_, ?_, ?_, ?_⟩
  · intro R hR gid g hg
    exact altCapacity_reach R hR (gid, g) (lookupG_mem hg)
  · intro R hR gid g hg
    exact simCapacity_reach R hR (gid, g) (lookupG_mem hg)
  · intro R gid pid pname g hg hfull
    simp only [Alt.handleJoin, hg, if_pos hfull]
  · intro R gid pid pname g hg hfull
    simp only [Sim.handleJoin, hg, if_pos hfull]

/-- Witness for C6: the two-player game "G1" (reachable by create
then join) has at most 2 players, and a third join in either variant
is rejected with `Full`, leaving the registry unchanged. -/
theorem session_capacity_witness :
    altG1.players.length ≤ 2
    ∧ simG1.players.length ≤ 2
    ∧ Alt.handleJoin altR1 "G1" "C" "Carol" = (altR1, .err .gameFull)
    ∧ Sim.handleJoin simDuo "G1" "C" "Carol" = (simDuo, .err .gameFull) := by
  refine ⟨?_, ?_, ?_, ?_⟩
  · exact session_capacity.1 altR1
      (Alt.Reach.join "G1" "B" "Bob" (Alt.Reach.create "G1" "A" "Alice" Alt.Reach.empty))
      "G1" altG1 (by decide)
  · exact session_capacity.2.1 simDuo
      (Sim.Reach.join "G1" "B" "Bob" (Sim.Reach.create "G1" "A" "Alice" Sim.Reach.empty))
      "G1" simG1 (by decide)
  · exact session_capacity.2.2.1 altR1 "G1" "C" "Carol" altG1 (by decide) (by decide)
  · exact session_capacity.2.2.2 simDuo "G1" "C" "Carol" simG1 (by decide) (by decide)

/-- Counterexample to C7 as stated: in the alternating variant
(`src/server.js:303-313`), after the first non-terminal resolution of
game "G1" the players' move selections are NOT cleared (Alice's
`currentAttackType` is still rock, Bob's `currentDefenseType` is still
scissors) and the turn holder is the defender Bob, not the first
player Alice. -/
theorem resolution_reset_cex :
    (lookupG altR3 "G1").map
      (fun g => (g.players.map (fun p => (p.currentAttackType, p.currentDefenseType)),
        g.currentTurn))
      = some ([(some Move.rock, none), (none, some Move.scissors)], some "B") := by
  decide

/-- Claim C7 (amended): after a battle resolution that does not
terminate the game, the simultaneous variant clears both players'
pending move fields (and ready flags), returns the phase to
`selection` and reinstates the first player as turn holder; the
alternating variant instead clears only the buffered pending attack,
makes the defender the next attacker (`turnMode = attack`), keeps the
phase unchanged, leaves every player's attack selection as it was,
and leaves the defender's just-submitted defense selection set. -/
theorem resolution_reset :
    (∀ (g : Sim.Game) (j1 j2 : ℕ) (p1 p2 : Sim.Player) (rest : List Sim.Player),
      g.players = p1 :: p2 :: rest →
      (Sim.processBattle g j1 j2).phase ≠ Phase.gameOver →
        (Sim.processBattle g j1 j2).phase = Phase.selection
        ∧ (Sim.processBattle g j1 j2).currentTurn = some p1.id
        ∧ ∀ q ∈ (Sim.processBattle g j1 j2).players.take 2,
            q.currentAttackType = none ∧ q.currentDefenseType = none ∧ q.ready = false)
    ∧ (∀ (R R' : Registry Alt.Game) (gid pid : String) (dt : Move) (j : ℕ)
        (g g' : Alt.Game) (d' : Alt.Player),
      Alt.handleSubmitDefense R gid pid dt j = (R', HandlerOutcome.ok) →
      lookupG R gid = some g →
      lookupG R' gid = some g' →
      g'.players.find? (fun p => p.id == pid) = some d' →
      0 < d'.health →
        g'.pendingAttack = none
        ∧ g'.currentTurn = some pid
        ∧ g'.currentTurnType = Alt.TurnType.attack
        ∧ g'.phase = g.phase
        ∧ g'.players.map (fun p => p.currentAttackType)
            = g.players.map (fun p => p.currentAttackType)
        ∧ d'.currentDefenseType = some dt) := by
  constructor
  · intro g j1 j2 p1 p2 rest hp hnt
    simp only [Sim.processBattle, hp] at hnt ⊢
    split at hnt
    case isTrue hterm => exact absurd rfl hnt
    case isFalse hsurv =>
      rw [if_neg hsurv]
      refine ⟨rfl, rfl, ?_⟩
      intro q hq
      simp only [List.take_succ_cons, List.take_zero] at hq
      rcases List.mem_cons.mp hq with rfl | hq
      · exact ⟨rfl, rfl, rfl⟩
      rcases List.mem_cons.mp hq with rfl | hq
      · exact ⟨rfl, rfl, rfl⟩
      · exact absurd hq (List.not_mem_nil q)
  · intro R R' gid pid dt j g g' d' hd hg hg' hfind hpos
    cases hf : g.players.find? (fun p => p.id == pid) with
    | none =>
      simp only [Alt.handleSubmitDefense, hg, hf] at hd
      simp at hd
    | some defender =>
      cases hpa : g.pendingAttack with
      | none =>
        simp only [Alt.handleSubmitDefense, hg, hf, hpa] at hd
        simp at hd
      | some pa =>
        cases ha : g.players.find? (fun p => p.id == pa.playerId) with
        | none =>
          simp only [Alt.handleSubmitDefense, hg, hf, hpa, ha] at hd
          simp at hd
        | some attacker =>
          simp only [Alt.handleSubmitDefense, hg, hf, hpa, ha] at hd
          split at hd
          case isTrue hdead =>
            rw [Prod.mk.injEq] at hd
            obtain ⟨hR', -⟩ := hd
            rw [← hR', lookupG_setG_self] at hg'
            obtain rfl := Option.some_inj.mp hg'
            rw [updateFirst_find? Alt.Player.id _ pid _ (by intro p; rfl),
              updateFirst_find? Alt.Player.id _ pid _ (by intro p; rfl), hf,
              Option.map_some', Option.map_some'] at hfind
            obtain rfl := Option.some_inj.mp hfind
            have hpos' : (0 : ℤ) < 0 ⊔ (defender.health - computeDamage attacker.attack
                (getEffectivenessMultiplier (some pa.attackType) (some dt)).multiplier
                defender.defense j) := hpos
            omega
          case isFalse halive =>
            rw [Prod.mk.injEq] at hd
            obtain ⟨hR', -⟩ := hd
            rw [← hR', lookupG_setG_self] at hg'
            obtain rfl := Option.some_inj.mp hg'
            have hmap : ∀ (f1 f2 : Alt.Player → Alt.Player),
                (∀ p, (f1 p).currentAttackType = p.currentAttackType) →
                (∀ p, (f2 p).currentAttackType = p.currentAttackType) →
                (updateFirst Alt.Player.id
                    (updateFirst Alt.Player.id g.players pid f1) pid f2).map
                  (fun p => p.currentAttackType)
                  = g.players.map (fun p => p.currentAttackType) := by
              intro f1 f2 h1 h2
              rw [updateFirst_map _ _ _ _ _ h2, updateFirst_map _ _ _ _ _ h1]
            refine ⟨rfl, rfl, rfl, rfl, hmap _ _ (fun p => rfl) (fun p => rfl), ?_⟩
            rw [updateFirst_find? Alt.Player.id _ pid _ (by intro p; rfl),
              updateFirst_find? Alt.Player.id _ pid _ (by intro p; rfl), hf,
              Option.map_some', Option.map_some'] at hfind
            obtain rfl := Option.some_inj.mp hfind
            rfl

/-- Witness for C7: the simultaneous half at the full-health rock/rock
battle (non-terminal, both move fields cleared, Alice reinstated), and
the alternating half at Bob's first scissors defense in game "G1"
(pending attack cleared, Bob becomes attacker, move selections
retained). -/
theorem resolution_reset_witness :
    ((Sim.processBattle simBattleG 0 0).phase = Phase.selection
      ∧ (Sim.processBattle simBattleG 0 0).currentTurn = some "A"
      ∧ ∀ q ∈ (Sim.processBattle simBattleG 0 0).players.take 2,
          q.currentAttackType = none ∧ q.currentDefenseType = none ∧ q.ready = false)
    ∧ (altG3.pendingAttack = none
      ∧ altG3.currentTurn = some "B"
      ∧ altG3.currentTurnType = Alt.TurnType.attack
      ∧ altG3.phase = altG2.phase
      ∧ altG3.players.map (fun p => p.currentAttackType)
          = altG2.players.map (fun p => p.currentAttackType)
      ∧ altD3.currentDefenseType = some Move.scissors) := by
  constructor
  · exact resolution_reset.1 simBattleG 0 0 { wAlice with health := 100 }
      { wBob with health := 100 } [] (by decide) (by decide)
  · exact resolution_reset.2 altR2 altR3 "G1" "B" Move.scissors 0 altG2 altG3 altD3
      (by decide) (by decide) (by decide) (by decide) (by decide)

/-- Counterexample to C8 as stated: in the simultaneous variant
(`src/unnamed/part_000:318-342`), when Alice leaves her one-player
session the stored registry is returned completely unchanged — the
leaver is neither removed nor marked (she is still listed) — and the
session is only scheduled for removal after the 5000ms grace delay,
not removed immediately although no other player is present. -/
theorem leave_behavior_cex :
    Sim.handleLeave simSolo "G1" "A" = (simSolo, none, Removal.afterDelay 5000)
    ∧ (lookupG simSolo "G1").map (fun g => g.players.map (fun p => p.id))
      = some ["A"] := by decide

/-- Claim C8 (amended): for a `leave(sessionId, playerId)` on an
existing session — alternating variant: the leaver is removed from the
stored players list; if no player remains the session is removed from
the registry immediately; if a player remains, the stored session
keeps its own phase/winner but the broadcast snapshot carries
`phase = game_over`, the remaining head player as winner and a
prepended departure line (always naming "Opponent", because the name
lookup runs on the already-filtered list), and deletion is scheduled
after the 5000ms grace delay.  Simultaneous variant: the stored
registry is not mutated at all (the leaver is neither removed nor
marked), deletion is always scheduled after the 5000ms delay (even
for a sole player), and when an opponent exists the broadcast
snapshot carries `game_over`, that opponent as winner, and one
prepended departure line. -/
theorem leave_behavior :
    (∀ (R : Registry Alt.Game) (gid pid : String) (g : Alt.Game),
      lookupG R gid = some g →
        (g.players.filter (fun p => p.id != pid) = [] →
          Alt.handleLeave R gid pid = (removeG R gid, none, Removal.immediate))
        ∧ (∀ q qs, g.players.filter (fun p => p.id != pid) = q :: qs →
          (Alt.handleLeave R gid pid).1 = setG R gid { g with players := q :: qs }
          ∧ (Alt.handleLeave R gid pid).2.2 = Removal.afterDelay 5000
          ∧ (Alt.handleLeave R gid pid).2.1
            = some { g with
                players := q :: qs
                phase := Phase.gameOver
                winner := some q.id
                gameLog := "Opponent left the game." :: g.gameLog }))
    ∧ (∀ (R : Registry Sim.Game) (gid pid : String) (g : Sim.Game),
      lookupG R gid = some g →
        (Sim.handleLeave R gid pid).1 = R
        ∧ (Sim.handleLeave R gid pid).2.2 = Removal.afterDelay 5000
        ∧ (g.players.find? (fun p => p.id != pid) = none →
            (Sim.handleLeave R gid pid).2.1 = none)
        ∧ (∀ q, g.players.find? (fun p => p.id != pid) = some q →
            ∀ pl, (Sim.handleLeave R gid pid).2.1 = some pl →
              pl.phase = Phase.gameOver ∧ pl.winner = some q.id
              ∧ pl.gameLog.tail = g.gameLog)) := by
  constructor
  · intro R gid pid g hg
    constructor
    · intro hnil
      simp only [Alt.handleLeave, hg, hnil]
    · intro q qs hcons
      have hn : (q :: qs).find? (fun p => p.id == pid) = none := by
        rw [← hcons]
        exact find?_filter_ne Alt.Player.id g.players pid
      refine ⟨?_, ?_, ?_⟩
      · simp only [Alt.handleLeave, hg, hcons]
      · simp only [Alt.handleLeave, hg, hcons]
      · simp only [Alt.handleLeave, hg, hcons, hn]
        rfl
  · intro R gid pid g hg
    refine ⟨?_, ?_, ?_, ?_⟩
    · simp only [Sim.handleLeave, hg]
    · simp only [Sim.handleLeave, hg]
    · intro hnone
      simp only [Sim.handleLeave, hg, hnone]
    · intro q hq pl hpl
      simp only [Sim.handleLeave, hg, hq] at hpl
      obtain rfl := Option.some_inj.mp hpl
      exact ⟨rfl, rfl, rfl⟩

/-- Witness for C8: Bob leaving the two-player alternating game "G1"
(Alice remains: stored session keeps her only, broadcast declares her
winner with `game_over` and a departure line, deletion after 5000ms),
and Bob leaving the two-player simultaneous game (registry unchanged,
deletion after 5000ms). -/
theorem leave_behavior_witness :
    ((Alt.handleLeave altR1 "G1" "B").1
        = setG altR1 "G1" { altG1 with players := [Alt.newPlayer "A" "Alice"] }
      ∧ (Alt.handleLeave altR1 "G1" "B").2.2 = Removal.afterDelay 5000
      ∧ (Alt.handleLeave altR1 "G1" "B").2.1
        = some { altG1 with
            players := [Alt.newPlayer "A" "Alice"]
            phase := Phase.gameOver
            winner := some "A"
            gameLog := "Opponent left the game." :: altG1.gameLog })
    ∧ ((Sim.handleLeave simDuo "G1" "B").1 = simDuo
      ∧ (Sim.handleLeave simDuo "G1" "B").2.2 = Removal.afterDelay 5000) := by
  constructor
  · exact (leave_behavior.1 altR1 "G1" "B" altG1 (by decide)).2
      (Alt.newPlayer "A" "Alice") [] (by decide)
  · have h := leave_behavior.2 simDuo "G1" "B" simG1 (by decide)
    exact ⟨h.1, h.2.1⟩

/-- Counterexample to C10 as stated: the registry `altR17` is
reachable (create, join, seven attack/defense rounds killing Bob,
Bob leaves the finished game, Carol joins during the deletion grace
window), yet its stored session has `winner = "A"` while
`phase = selection`: `join_game` checks only the player count and
resets the phase without clearing the winner, so the winner-only-at-
game-over invariant does not survive every operation. -/
theorem winner_discipline_cex :
    Alt.Reach altR17
    ∧ (lookupG altR17 "G1").map (fun g => (g.winner, g.phase))
      = some (some "A", Phase.selection) := by
  constructor
  · exact Alt.Reach.join "G1" "C" "Carol"
      (Alt.Reach.leave "G1" "B"
      (Alt.Reach.defend "G1" "B" .scissors 0
      (Alt.Reach.atk "G1" "A" .rock
      (Alt.Reach.defend "G1" "A" .scissors 0
      (Alt.Reach.atk "G1" "B" .rock
      (Alt.Reach.defend "G1" "B" .scissors 0
      (Alt.Reach.atk "G1" "A" .rock
      (Alt.Reach.defend "G1" "A" .scissors 0
      (Alt.Reach.atk "G1" "B" .rock
      (Alt.Reach.defend "G1" "B" .scissors 0
      (Alt.Reach.atk "G1" "A" .rock
      (Alt.Reach.defend "G1" "A" .scissors 0
      (Alt.Reach.atk "G1" "B" .rock
      (Alt.Reach.defend "G1" "B" .scissors 0
      (Alt.Reach.atk "G1" "A" .rock
      (Alt.Reach.join "G1" "B" "Bob"
      (Alt.Reach.create "G1" "A" "Alice"
      Alt.Reach.empty)))))))))))))))))
  · decide

/-- Claim C10 (amended): a freshly created session has `winner = null`
and `phase = waiting` in both variants, and no join, move submission
or battle resolution assigns a different winner without simultaneously
setting the phase to `game_over`.  (The stronger stated invariant —
winner non-null only while `phase = game_over` — fails on reachable
states, see the counterexample: a join after a leave from a finished
session resets the phase but not the winner.) -/
theorem winner_discipline :
    (∀ gid pid pname : String, (Alt.newGame gid pid pname).winner = none
      ∧ (Alt.newGame gid pid pname).phase = Phase.waiting)
    ∧ (∀ gid pid pname : String, (Sim.newGame gid pid pname).winner = none
      ∧ (Sim.newGame gid pid pname).phase = Phase.waiting)
    ∧ (∀ (R : Registry Alt.Game) (gid pid pname gid' : String) (g g' : Alt.Game),
      lookupG R gid' = some g →
      lookupG (Alt.handleJoin R gid pid pname).1 gid' = some g' →
      g'.winner ≠ g.winner → g'.phase = Phase.gameOver)
    ∧ (∀ (R : Registry Alt.Game) (gid pid : String) (a : Move) (gid' : String)
        (g g' : Alt.Game),
      lookupG R gid' = some g →
      lookupG (Alt.handleSubmitAttack R gid pid a).1 gid' = some g' →
      g'.winner ≠ g.winner → g'.phase = Phase.gameOver)
    ∧ (∀ (R : Registry Alt.Game) (gid pid : String) (dt : Move) (j : ℕ)
        (gid' : String) (g g' : Alt.Game),
      lookupG R gid' = some g →
      lookupG (Alt.handleSubmitDefense R gid pid dt j).1 gid' = some g' →
      g'.winner ≠ g.winner → g'.phase = Phase.gameOver)
    ∧ (∀ (R : Registry Sim.Game) (gid pid pname gid' : String) (g g' : Sim.Game),
      lookupG R gid' = some g →
      lookupG (Sim.handleJoin R gid pid pname).1 gid' = some g' →
      g'.winner ≠ g.winner → g'.phase = Phase.gameOver)
    ∧ (∀ (R : Registry Sim.Game) (gid pid : String) (a d : Move) (j1 j2 : ℕ)
        (gid' : String) (g g' : Sim.Game),
      lookupG R gid' = some g →
      lookupG (Sim.handleSubmitMove R gid pid a d j1 j2).1 gid' = some g' →
      g'.winner ≠ g.winner → g'.phase = Phase.gameOver) := by
  refine ⟨fun _ _ _ => ⟨rfl, rfl⟩, fun _ _ _ => ⟨rfl, rfl⟩, ?_, ?_, ?_, ?_, ?_⟩
  · intro R gid pid pname gid' g g' hg hg' hne
    cases hl : lookupG R gid with
    | none =>
      simp only [Alt.handleJoin, hl] at hg'
      rw [hg] at hg'
      obtain rfl := Option.some_inj.mp hg'
      exact absurd rfl hne
    | some g0 =>
      by_cases hfull : 2 ≤ g0.players.length
      · simp only [Alt.handleJoin, hl, if_pos hfull] at hg'
        rw [hg] at hg'
        obtain rfl := Option.some_inj.mp hg'
        exact absurd rfl hne
      · simp only [Alt.handleJoin, hl, if_neg hfull] at hg'
        by_cases hkey : gid' = gid
        · subst hkey
          rw [lookupG_setG_self] at hg'
          obtain rfl := Option.some_inj.mp hg'
          rw [hl] at hg
          obtain rfl := Option.some_inj.mp hg
          exact absurd rfl hne
        · rw [lookupG_setG_ne _ _ hkey] at hg'
          rw [hg] at hg'
          obtain rfl := Option.some_inj.mp hg'
          exact absurd rfl hne
  · intro R gid pid a gid' g g' hg hg' hne
    cases hl : lookupG R gid with
    | none =>
      simp only [Alt.handleSubmitAttack, hl] at hg'
      rw [hg] at hg'
      obtain rfl := Option.some_inj.mp hg'
      exact absurd rfl hne
    | some g0 =>
      cases hf : g0.players.find? (fun p => p.id == pid) with
      | none =>
        simp only [Alt.handleSubmitAttack, hl, hf] at hg'
        rw [hg] at hg'
        obtain rfl := Option.some_inj.mp hg'
        exact absurd rfl hne
      | some player =>
        by_cases ht : g0.currentTurn ≠ some pid ∨ g0.currentTurnType ≠ Alt.TurnType.attack
        · simp only [Alt.handleSubmitAttack, hl, hf, if_pos ht] at hg'
          rw [hg] at hg'
          obtain rfl := Option.some_inj.mp hg'
          exact absurd rfl hne
        · simp only [Alt.handleSubmitAttack, hl, hf, if_neg ht] at hg'
          split at hg'
          all_goals
            by_cases hkey : gid' = gid
          · subst hkey
            rw [lookupG_setG_self] at hg'
            obtain rfl := Option.some_inj.mp hg'
            rw [hl] at hg
            obtain rfl := Option.some_inj.mp hg
            exact absurd rfl hne
          · rw [lookupG_setG_ne _ _ hkey] at hg'
            rw [hg] at hg'
            obtain rfl := Option.some_inj.mp hg'
            exact absurd rfl hne
          · subst hkey
            rw [lookupG_setG_self] at hg'
            obtain rfl := Option.some_inj.mp hg'
            rw [hl] at hg
            obtain rfl := Option.some_inj.mp hg
            exact absurd rfl hne
          · rw [lookupG_setG_ne _ _ hkey] at hg'
            rw [hg] at hg'
            obtain rfl := Option.some_inj.mp hg'
            exact absurd rfl hne
  · intro R gid pid dt j gid' g g' hg hg' hne
    cases hl : lookupG R gid with
    | none =>
      simp only [Alt.handleSubmitDefense, hl] at hg'
      rw [hg] at hg'
      obtain rfl := Option.some_inj.mp hg'
      exact absurd rfl hne
    | some g0 =>
      cases hf : g0.players.find? (fun p => p.id == pid) with
      | none =>
        simp only [Alt.handleSubmitDefense, hl, hf] at hg'
        rw [hg] at hg'
        obtain rfl := Option.some_inj.mp hg'
        exact absurd rfl hne
      | some defender =>
        cases hpa : g0.pendingAttack with
        | none =>
          simp only [Alt.handleSubmitDefense, hl, hf, hpa] at hg'
          rw [hg] at hg'
          obtain rfl := Option.some_inj.mp hg'
          exact absurd rfl hne
        | some pa =>
          cases ha : g0.players.find? (fun p => p.id == pa.playerId) with
          | none =>
            simp only [Alt.handleSubmitDefense, hl, hf, hpa, ha] at hg'
            by_cases hkey : gid' = gid
            · subst hkey
              rw [lookupG_setG_self] at hg'
              obtain rfl := Option.some_inj.mp hg'
              rw [hl] at hg
              obtain rfl := Option.some_inj.mp hg
              exact absurd rfl hne
            · rw [lookupG_setG_ne _ _ hkey] at hg'
              rw [hg] at hg'
              obtain rfl := Option.some_inj.mp hg'
              exact absurd rfl hne
          | some attacker =>
            simp only [Alt.handleSubmitDefense, hl, hf, hpa, ha] at hg'
            rw [apply_ite (Prod.fst (α := Registry Alt.Game) (β := HandlerOutcome))]
              at hg'
            split at hg'
            next hdead =>
              by_cases hkey : gid' = gid
              · subst hkey
                rw [lookupG_setG_self] at hg'
                obtain rfl := Option.some_inj.mp hg'
                rfl
              · rw [lookupG_setG_ne _ _ hkey] at hg'
                rw [hg] at hg'
                obtain rfl := Option.some_inj.mp hg'
                exact absurd rfl hne
            next halive =>
              by_cases hkey : gid' = gid
              · subst hkey
                rw [lookupG_setG_self] at hg'
                obtain rfl := Option.some_inj.mp hg'
                rw [hl] at hg
                obtain rfl := Option.some_inj.mp hg
                exact absurd rfl hne
              · rw [lookupG_setG_ne _ _ hkey] at hg'
                rw [hg] at hg'
                obtain rfl := Option.some_inj.mp hg'
                exact absurd rfl hne
  · intro R gid pid pname gid' g g' hg hg' hne
    cases hl : lookupG R gid with
    | none =>
      simp only [Sim.handleJoin, hl] at hg'
      rw [hg] at hg'
      obtain rfl := Option.some_inj.mp hg'
      exact absurd rfl hne
    | some g0 =>
      by_cases hfull : 2 ≤ g0.players.length
      · simp only [Sim.handleJoin, hl, if_pos hfull] at hg'
        rw [hg] at hg'
        obtain rfl := Option.some_inj.mp hg'
        exact absurd rfl hne
      · simp only [Sim.handleJoin, hl, if_neg hfull] at hg'
        by_cases hkey : gid' = gid
        · subst hkey
          rw [lookupG_setG_self] at hg'
          obtain rfl := Option.some_inj.mp hg'
          rw [hl] at hg
          obtain rfl := Option.some_inj.mp hg
          exact absurd rfl hne
        · rw [lookupG_setG_ne _ _ hkey] at hg'
          rw [hg] at hg'
          obtain rfl := Option.some_inj.mp hg'
          exact absurd rfl hne
  · intro R gid pid a d j1 j2 gid' g g' hg hg' hne
    cases hl : lookupG R gid with
    | none =>
      simp only [Sim.handleSubmitMove, hl] at hg'
      rw [hg] at hg'
      obtain rfl := Option.some_inj.mp hg'
      exact absurd rfl hne
    | some g0 =>
      cases hf : g0.players.find? (fun p => p.id == pid) with
      | none =>
        simp only [Sim.handleSubmitMove, hl, hf] at hg'
        rw [hg] at hg'
        obtain rfl := Option.some_inj.mp hg'
        exact absurd rfl hne
      | some player =>
        by_cases ht : g0.currentTurn ≠ some pid
        · simp only [Sim.handleSubmitMove, hl, hf, if_pos ht] at hg'
          rw [hg] at hg'
          obtain rfl := Option.some_inj.mp hg'
          exact absurd rfl hne
        · simp only [Sim.handleSubmitMove, hl, hf, if_neg ht] at hg'
          rw [apply_ite (Prod.fst (α := Registry Sim.Game) (β := HandlerOutcome))]
            at hg'
          split at hg'
          next hready =>
            by_cases hkey : gid' = gid
            · subst hkey
              rw [lookupG_setG_self] at hg'
              obtain rfl := Option.some_inj.mp hg'
              rw [hl] at hg
              obtain rfl := Option.some_inj.mp hg
              exact processBattle_winner_change _ j1 j2 hne
            · rw [lookupG_setG_ne _ _ hkey] at hg'
              rw [hg] at hg'
              obtain rfl := Option.some_inj.mp hg'
              exact absurd rfl hne
          next hwait =>
            by_cases hkey : gid' = gid
            · subst hkey
              rw [lookupG_setG_self] at hg'
              obtain rfl := Option.some_inj.mp hg'
              rw [hl] at hg
              obtain rfl := Option.some_inj.mp hg
              exact absurd rfl hne
            · rw [lookupG_setG_ne _ _ hkey] at hg'
              rw [hg] at hg'
              obtain rfl := Option.some_inj.mp hg'
              exact absurd rfl hne

/-- Witness for C10: in the alternating game where Bob is at 3 health
with a buffered rock attack, Bob's lethal defense changes the winner
from `none` to `"A"` — and indeed the resulting phase is
`game_over`. -/
theorem winner_discipline_witness :
    altKillG2.phase = Phase.gameOver :=
  winner_discipline.2.2.2.2.1 altKillR "G1" "B" Move.scissors 0 "G1"
    altKillG altKillG2 (by decide) (by decide) (by decide)

end RPS
